import Mathlib

/-!
Verification development for the BroTrans browser-extension orchestration
protocol.  The definitions below are a shallow embedding of the JavaScript
source of the repository:

* `BroTrans.Json`, `BroTrans.Json.parse` — model of JS `JSON.parse` on the
  substring handed to it by the action-extraction step;
* `BroTrans.matchNG` / `BroTrans.matchG` — the first match of the regexes
  `/\{[\s\S]*?"action"[\s\S]*?\}/` (background.js, popup variants) and
  `/\{[\s\S]*"action"[\s\S]*\}/` (offscreen.js) on a string;
* `BroTrans.extractNG` / `BroTrans.extractG` — the action-parsing and
  response-cleaning step of `generateResponse`;
* `BroTrans.Content.*` — the Gmail content script (Page Automation Agent);
* `BroTrans.Chat.*` — the background service-worker `chat` pipeline;
* `BroTrans.UI.*` — the popup send/quick-action guards;
* `BroTrans.Engine.*` — an interleaving model of the single-flight
  session-initialization code (`getAISession` / `initializeEngine`).

Conventions: JS `undefined`/missing properties are modelled with `Option`;
functions that can throw in JS are modelled with `Option`/`Except` results;
machine floats do not occur (JSON numbers are modelled exactly as
`m / 10 ^ e`, matching `JSON.parse` on the decimal literals that occur).
-/

namespace BroTrans

/-- Left brace character (written via its code point to keep string literals
free of braces). -/
def lbrace : Char := Char.ofNat 123

/-- Right brace character. -/
def rbrace : Char := Char.ofNat 125

/-- Double-quote character. -/
def dq : Char := Char.ofNat 34

/-- Backslash character. -/
def bslash : Char := Char.ofNat 92

/-- JSON value, as produced by `JSON.parse`.  A number literal with integer
part/fraction/exponent is represented exactly as the rational `m / 10 ^ e`
(JS number rounding is not modelled; the action payloads the source handles
use small integers only).  Object fields keep textual order; duplicate keys
are kept and field access returns the last one, as in JS. -/
inductive Json where
  | null : Json
  | bool (b : Bool) : Json
  | num (m : Int) (e : Nat) : Json
  | str (s : String) : Json
  | arr (elems : List Json) : Json
  | obj (fields : List (String × Json)) : Json

/-- JS truthiness of a JSON value (`if (x)`). -/
def jsTruthy : Json → Bool
  | .null => false
  | .bool b => b
  | .num m _ => m != 0
  | .str s => s != ""
  | .arr _ => true
  | .obj _ => true

/-- Property access `x[k]` on a parsed JSON value: only objects have own
properties; for duplicate keys the last assignment wins (JS object
semantics). -/
def jsonLookup (j : Json) (k : String) : Option Json :=
  match j with
  | .obj fields => (fields.filterMap fun f => if f.1 = k then some f.2 else none).getLast?
  | _ => none

/-- Digits of a natural number, used to print JSON numbers the way a JS
template literal does. -/
def natDigits (n : Nat) : List Char :=
  (Nat.toDigits 10 n)

/-- Render `m / 10 ^ e` the way JS stringifies the number: decimal point
inserted, trailing fractional zeros dropped (exponential notation for very
large magnitudes is not modelled; it never arises in the source payloads). -/
def numToString (m : Int) (e : Nat) : String :=
  let n := m.natAbs
  let ds := natDigits n
  let ds := List.replicate (e + 1 - ds.length) '0' ++ ds
  let intPart := ds.take (ds.length - e)
  let fracPart := (ds.drop (ds.length - e)).reverse.dropWhile (· = '0') |>.reverse
  let body := if fracPart.isEmpty then intPart else intPart ++ '.' :: fracPart
  let signed := if m < 0 && n ≠ 0 then '-' :: body else body
  ⟨signed⟩

mutual

/-- JS `String(x)` / template-literal conversion of a JSON value.  Arrays
stringify as comma-joined elements with `null` elements rendered empty;
objects render as `[object Object]`. -/
def jsDisplay : Json → String
  | .null => "null"
  | .bool true => "true"
  | .bool false => "false"
  | .num m e => numToString m e
  | .str s => s
  | .arr elems => jsDisplayList elems
  | .obj _ => "[object Object]"

/-- Comma-join of array elements for `jsDisplay`, with `null` rendered
empty as JS `Array.prototype.join` does. -/
def jsDisplayList : List Json → String
  | [] => ""
  | [.null] => ""
  | [x] => jsDisplay x
  | .null :: rest => "," ++ jsDisplayList rest
  | x :: rest => jsDisplay x ++ ("," ++ jsDisplayList rest)

end

/-- Whitespace skipped by `JSON.parse` between tokens (JSON spec set). -/
def jsonWs (c : Char) : Bool :=
  c = ' ' || c = '\t' || c = '\n' || c = '\r'

/-- Drop leading JSON whitespace. -/
def skipWs (cs : List Char) : List Char :=
  cs.dropWhile jsonWs

/-- Hex digit value, for string escapes of the form backslash-u-XXXX. -/
def hexVal (c : Char) : Option Nat :=
  if '0' ≤ c ∧ c ≤ '9' then some (c.toNat - 48)
  else if 'a' ≤ c ∧ c ≤ 'f' then some (c.toNat - 87)
  else if 'A' ≤ c ∧ c ≤ 'F' then some (c.toNat - 55)
  else none

/-- Decimal digit test. -/
def isDigit (c : Char) : Bool := '0' ≤ c && c ≤ '9'

/-- Parse the body of a JSON string after the opening quote; `acc` holds the
characters read so far, reversed.  Mirrors `JSON.parse`: raw control
characters are rejected, the standard escapes and `u`-escapes are decoded
(lone surrogate code units, unrepresentable in Lean strings, decode to the
null character). -/
def parseStrChars : List Char → List Char → Option (String × List Char)
  | [], _ => none
  | c :: rest, acc =>
    if c = dq then some (⟨acc.reverse⟩, rest)
    else if c = bslash then
      match rest with
      | [] => none
      | e :: rest2 =>
        if e = dq then parseStrChars rest2 (dq :: acc)
        else if e = bslash then parseStrChars rest2 (bslash :: acc)
        else if e = '/' then parseStrChars rest2 ('/' :: acc)
        else if e = 'b' then parseStrChars rest2 (Char.ofNat 8 :: acc)
        else if e = 'f' then parseStrChars rest2 (Char.ofNat 12 :: acc)
        else if e = 'n' then parseStrChars rest2 ('\n' :: acc)
        else if e = 'r' then parseStrChars rest2 ('\r' :: acc)
        else if e = 't' then parseStrChars rest2 ('\t' :: acc)
        else if e = 'u' then
          match rest2 with
          | h1 :: h2 :: h3 :: h4 :: rest3 =>
            match hexVal h1, hexVal h2, hexVal h3, hexVal h4 with
            | some a, some b, some c2, some d =>
              parseStrChars rest3 (Char.ofNat (((a * 16 + b) * 16 + c2) * 16 + d) :: acc)
            | _, _, _, _ => none
          | _ => none
        else none
    else if c.toNat < 32 then none
    else parseStrChars rest (c :: acc)

/-- Parse a JSON string where the input starts at the opening quote. -/
def parseStr (cs : List Char) : Option (String × List Char) :=
  match cs with
  | c :: rest => if c = dq then parseStrChars rest [] else none
  | [] => none

/-- Accumulate the value of a digit run. -/
def digitsToNat (l : List Char) : Nat :=
  l.foldl (fun a c => a * 10 + (c.toNat - 48)) 0

/-- Parse a JSON number literal (sign, integer part with no leading zeros,
optional fraction, optional exponent), returning the exact value
`m / 10 ^ e`. -/
def parseNum (cs : List Char) : Option (Json × List Char) :=
  let (neg, cs1) :=
    match cs with
    | c :: rest => if c = '-' then (true, rest) else (false, cs)
    | [] => (false, cs)
  let intRes : Option (List Char × List Char) :=
    match cs1 with
    | c :: rest =>
      if c = '0' then some ([c], rest)
      else if isDigit c then some (c :: rest.takeWhile isDigit, rest.dropWhile isDigit)
      else none
    | [] => none
  match intRes with
  | none => none
  | some (intDs, cs2) =>
    let fracRes : Option (List Char × List Char) :=
      match cs2 with
      | c :: rest =>
        if c = '.' then
          let fs := rest.takeWhile isDigit
          if fs.isEmpty then none else some (fs, rest.dropWhile isDigit)
        else some ([], cs2)
      | [] => some ([], cs2)
    match fracRes with
    | none => none
    | some (fracDs, cs3) =>
      let expRes : Option (Int × List Char) :=
        match cs3 with
        | c :: rest =>
          if c = 'e' ∨ c = 'E' then
            let (esign, rest2) :=
              match rest with
              | d :: r2 => if d = '-' then (true, r2) else if d = '+' then (false, r2) else (false, rest)
              | [] => (false, rest)
            let eds := rest2.takeWhile isDigit
            if eds.isEmpty then none
            else
              let k : Int := digitsToNat eds
              some (if esign then -k else k, rest2.dropWhile isDigit)
          else some (0, cs3)
        | [] => some (0, cs3)
      match expRes with
      | none => none
      | some (k, cs4) =>
        let mag : Int := digitsToNat (intDs ++ fracDs)
        let m : Int := if neg then -mag else mag
        let shift : Int := k - fracDs.length
        if 0 ≤ shift then some (.num (m * 10 ^ shift.toNat) 0, cs4)
        else some (.num m (-shift).toNat, cs4)

mutual

/-- Parse one JSON value from the front of the input (leading whitespace
already skipped).  Fuel bounds the recursion; `Json.parse` supplies enough
for any input. -/
def parseValue : Nat → List Char → Option (Json × List Char)
  | 0, _ => none
  | fuel + 1, cs =>
    match cs with
    | [] => none
    | c :: rest =>
      if c = lbrace then
        let cs1 := skipWs rest
        match cs1 with
        | d :: rest1 => if d = rbrace then some (.obj [], rest1) else parseMembers fuel cs1 []
        | [] => none
      else if c = '[' then
        let cs1 := skipWs rest
        match cs1 with
        | d :: rest1 => if d = ']' then some (.arr [], rest1) else parseItems fuel cs1 []
        | [] => none
      else if c = dq then
        match parseStr cs with
        | some (s, rest1) => some (.str s, rest1)
        | none => none
      else if c = 't' then
        match rest with
        | 'r' :: 'u' :: 'e' :: rest1 => some (.bool true, rest1)
        | _ => none
      else if c = 'f' then
        match rest with
        | 'a' :: 'l' :: 's' :: 'e' :: rest1 => some (.bool false, rest1)
        | _ => none
      else if c = 'n' then
        match rest with
        | 'u' :: 'l' :: 'l' :: rest1 => some (.null, rest1)
        | _ => none
      else if c = '-' ∨ isDigit c then parseNum cs
      else none

/-- Parse the members of a JSON object starting at the first key. -/
def parseMembers : Nat → List Char → List (String × Json) → Option (Json × List Char)
  | 0, _, _ => none
  | fuel + 1, cs, acc =>
    match parseStr cs with
    | none => none
    | some (key, cs1) =>
      match skipWs cs1 with
      | c :: cs2 =>
        if c = ':' then
          match parseValue fuel (skipWs cs2) with
          | none => none
          | some (v, cs3) =>
            match skipWs cs3 with
            | d :: cs4 =>
              if d = ',' then parseMembers fuel (skipWs cs4) (acc ++ [(key, v)])
              else if d = rbrace then some (.obj (acc ++ [(key, v)]), cs4)
              else none
            | [] => none
        else none
      | [] => none

/-- Parse the items of a JSON array starting at the first element. -/
def parseItems : Nat → List Char → List Json → Option (Json × List Char)
  | 0, _, _ => none
  | fuel + 1, cs, acc =>
    match parseValue fuel cs with
    | none => none
    | some (v, cs1) =>
      match skipWs cs1 with
      | d :: cs2 =>
        if d = ',' then parseItems fuel (skipWs cs2) (acc ++ [v])
        else if d = ']' then some (.arr (acc ++ [v]), cs2)
        else none
      | [] => none

end

/-- Model of JS `JSON.parse s`: `none` when it would throw (syntax error or
trailing content), `some v` otherwise. -/
def Json.parse (s : String) : Option Json :=
  let cs := skipWs s.data
  match parseValue (cs.length + 1) cs with
  | some (v, rest) => if skipWs rest = [] then some v else none
  | none => none

/-- Whitespace removed by JS `String.prototype.trim` and matched by a
whitespace class in a pattern: the full WhiteSpace and LineTerminator sets
(tab, LF, VT, FF, CR, space, NBSP, Ogham space mark, the U+2000 to U+200A
range, LS, PS, narrow no-break space, medium mathematical space, ideographic
space, BOM). -/
def jsWsChar (c : Char) : Bool :=
  c = ' ' || c = '\t' || c = '\n' || c = '\r' ||
  c.toNat = 11 || c.toNat = 12 || c.toNat = 160 ||
  c.toNat = 0x1680 || (0x2000 ≤ c.toNat && c.toNat ≤ 0x200A) ||
  c.toNat = 0x2028 || c.toNat = 0x2029 || c.toNat = 0x202F ||
  c.toNat = 0x205F || c.toNat = 0x3000 || c.toNat = 0xFEFF

/-- Model of JS `s.trim()`. -/
def jsTrim (s : String) : String :=
  ⟨((s.data.dropWhile jsWsChar).reverse.dropWhile jsWsChar).reverse⟩

/-- The literal pattern the action regexes must find between the braces:
a double-quoted `action`. -/
def actionPat : List Char := "\"action\"".data

/-- Does `pat` occur at the front of `s`? -/
def listStartsWith : List Char → List Char → Bool
  | _, [] => true
  | [], _ :: _ => false
  | c :: cs, p :: ps => c = p && listStartsWith cs ps

/-- Fuel-driven search loop for `findSubFrom` (structural recursion so that
terms reduce definitionally). -/
def findSubFromAux (s pat : List Char) : Nat → Nat → Option Nat
  | _, 0 => none
  | i, fuel + 1 =>
    if listStartsWith (s.drop i) pat then some i
    else if i < s.length then findSubFromAux s pat (i + 1) fuel
    else none

/-- First index `≥ i` at which `pat` occurs in `s` (JS `indexOf`). -/
def findSubFrom (s pat : List Char) (i : Nat) : Option Nat :=
  findSubFromAux s pat i (s.length + 1 - i)

/-- Fuel-driven search loop for `findCharFrom`. -/
def findCharFromAux (s : List Char) (c : Char) : Nat → Nat → Option Nat
  | _, 0 => none
  | i, fuel + 1 =>
    match s.drop i with
    | [] => none
    | d :: _ => if d = c then some i else findCharFromAux s c (i + 1) fuel

/-- First index `≥ i` at which character `c` occurs in `s`. -/
def findCharFrom (s : List Char) (c : Char) (i : Nat) : Option Nat :=
  findCharFromAux s c i (s.length + 1 - i)

/-- Index of the last occurrence of character `c` in `s`. -/
def findLastChar (s : List Char) (c : Char) : Option Nat :=
  s.enum.foldl (fun acc p => if p.2 = c then some p.1 else acc) none

/-- First match of the non-greedy action regex (background.js, popup.js
variants): scanning start positions left to right, a match starts at a brace
from which the pattern completes; the lazy quantifiers pick the earliest
quoted `action` after the brace and then the earliest closing brace after
it.  Returns the half-open index range of the match. -/
def matchNGAux (s : List Char) : Nat → Nat → Option (Nat × Nat)
  | _, 0 => none
  | i, fuel + 1 =>
    match s.drop i with
    | [] => none
    | c :: _ =>
      if c = lbrace then
        match findSubFrom s actionPat (i + 1) with
        | some j =>
          match findCharFrom s rbrace (j + 8) with
          | some k => some (i, k + 1)
          | none => matchNGAux s (i + 1) fuel
        | none => matchNGAux s (i + 1) fuel
      else matchNGAux s (i + 1) fuel

/-- Match of `/\{[\s\S]*?"action"[\s\S]*?\}/` on a string (`String.match`,
non-global regex): `none` when there is no match. -/
def matchNG (s : String) : Option (Nat × Nat) :=
  matchNGAux s.data 0 (s.data.length + 1)

/-- First match of the greedy action regex (offscreen.js): same leftmost
start position, but the greedy quantifiers extend the match to the last
closing brace of the whole string (provided a quoted `action` fits before
it). -/
def matchGAux (s : List Char) : Nat → Nat → Option (Nat × Nat)
  | _, 0 => none
  | i, fuel + 1 =>
    match s.drop i with
    | [] => none
    | c :: _ =>
      if c = lbrace then
        match findSubFrom s actionPat (i + 1) with
        | some j =>
          match findLastChar s rbrace with
          | some k => if j + 8 ≤ k then some (i, k + 1) else matchGAux s (i + 1) fuel
          | none => matchGAux s (i + 1) fuel
        | none => matchGAux s (i + 1) fuel
      else matchGAux s (i + 1) fuel

/-- Match of `/\{[\s\S]*"action"[\s\S]*\}/` on a string. -/
def matchG (s : String) : Option (Nat × Nat) :=
  matchGAux s.data 0 (s.data.length + 1)

/-- Substring of `s` over the half-open index range `[a, b)` (the matched
text handed to `JSON.parse`). -/
def sliceStr (s : String) (a b : Nat) : String :=
  ⟨(s.data.drop a).take (b - a)⟩

/-- Result of `s.replace(regex, '')` when the regex matched `[a, b)`. -/
def removeSlice (s : String) (a b : Nat) : String :=
  ⟨s.data.take a ++ s.data.drop b⟩

/-- JS `opt ?? default` specialised to "value if truthy, else default"
(`x || d`). -/
def truthyOr (o : Option Json) (d : Json) : Json :=
  match o with
  | some v => if jsTruthy v then v else d
  | none => d

/-- Access `action.params?.k`: `none` models `undefined`. -/
def paramField (a : Json) (k : String) : Option Json :=
  (jsonLookup a "params").bind fun p => jsonLookup p k

/-- Display string of JS `x + 1` for the values reachable through
`(action.params?.index || 0) + 1`: numbers add, strings and array/object
stringifications concatenate, `true` becomes `2` (falsy values were already
replaced by `0`). -/
def jsAddOneDisplay : Json → String
  | .num m e => numToString (m + 10 ^ e) e
  | .str s => s ++ "1"
  | .bool true => "2"
  | .bool false => "1"
  | .null => "1"
  | .arr elems => jsDisplay (.arr elems) ++ "1"
  | .obj fields => jsDisplay (.obj fields) ++ "1"

/-- Value of the template fragment for `action.params?.query || ''`. -/
def searchQueryText (a : Json) : String :=
  match paramField a "query" with
  | some v => if jsTruthy v then jsDisplay v else ""
  | none => ""

/-- Value of the template fragment for `action.params?.direction || 'down'`. -/
def scrollDirText (a : Json) : String :=
  match paramField a "direction" with
  | some v => if jsTruthy v then jsDisplay v else "down"
  | none => "down"

/-- Value of the template fragment for `(action.params?.index || 0) + 1`. -/
def openIdxText (a : Json) : String :=
  jsAddOneDisplay (truthyOr (paramField a "index") (Json.num 0 0))

/-- Key under which the confirmation table is consulted:
`msgs[action.action]` converts the property expression to a string
(`undefined` when the field is absent). -/
def confirmationKey (a : Json) : String :=
  match jsonLookup a "action" with
  | some v => jsDisplay v
  | none => "undefined"

/-- Names of the own entries of both confirmation tables (the eight action
names). -/
def msgsOwnKeys : List String :=
  ["summarize_inbox", "summarize_email", "filter_unread", "search",
   "analyze_sentiment", "draft_reply", "open_email", "scroll"]

/-- Property names an object literal inherits from `Object.prototype`: a
lookup `msgs[key]` with one of these keys returns the inherited function
(or, for the last one, the prototype object itself) instead of missing. -/
def objectProtoKeys : List String :=
  ["constructor", "hasOwnProperty", "isPrototypeOf", "propertyIsEnumerable",
   "toLocaleString", "toString", "valueOf", "__defineGetter__",
   "__defineSetter__", "__lookupGetter__", "__lookupSetter__", "__proto__"]

/-- Lookup `msgs[key] || "Processing..."` in the background.js confirmation
table, with the table values computed from the action object as in the
source.  This gives the own-property value (or the fallback); it is the
value the program produces exactly when the key does not hit an
`Object.prototype` member — `confirmationOutcome` below is the
prototype-aware model of the full lookup. -/
def confirmationText (key : String) (a : Json) : String :=
  if key = "summarize_inbox" then "Summarizing your inbox..."
  else if key = "summarize_email" then "Summarizing this email..."
  else if key = "filter_unread" then "Showing unread emails..."
  else if key = "search" then "Searching for: " ++ searchQueryText a
  else if key = "analyze_sentiment" then "Analyzing sentiment..."
  else if key = "draft_reply" then "Drafting reply..."
  else if key = "open_email" then "Opening email " ++ openIdxText a ++ "..."
  else if key = "scroll" then "Scrolling " ++ scrollDirText a ++ "..."
  else "Processing..."

/-- The `getActionConfirmation` table of background.js, as the string it
returns whenever the key is not an `Object.prototype` member name (see
`confirmationOutcome` for the general case). -/
def getActionConfirmation (a : Json) : String :=
  confirmationText (confirmationKey a) a

/-- Value category of the full JS lookup `msgs[action.action] ||
"Processing..."`: an own entry or the fallback yields a canned string; an
`Object.prototype` member name yields the inherited function/object, which
is truthy and passes straight through the `||` guard — the program then
uses a function, not a string, as the display text. -/
inductive ConfirmOutcome where
  | canned (s : String) : ConfirmOutcome
  | protoLeak : ConfirmOutcome
deriving DecidableEq

/-- Prototype-aware model of the background.js confirmation lookup. -/
def confirmationOutcome (a : Json) : ConfirmOutcome :=
  if confirmationKey a ∈ msgsOwnKeys then
    ConfirmOutcome.canned (confirmationText (confirmationKey a) a)
  else if confirmationKey a ∈ objectProtoKeys then ConfirmOutcome.protoLeak
  else ConfirmOutcome.canned "Processing..."

/-- Lookup in the offscreen.js confirmation table (different wording); as
with `confirmationText`, this is the own-property value, the program's
result whenever the key is not an `Object.prototype` member name. -/
def confirmationTextOffscreen (key : String) (a : Json) : String :=
  if key = "summarize_inbox" then "I\x27ll summarize your inbox for you."
  else if key = "summarize_email" then "Let me summarize this email."
  else if key = "filter_unread" then "Filtering to show unread emails."
  else if key = "search" then "Searching for: " ++ searchQueryText a
  else if key = "analyze_sentiment" then "Analyzing the sentiment of this email."
  else if key = "draft_reply" then "I\x27ll help you draft a reply."
  else if key = "open_email" then "Opening email " ++ openIdxText a ++ "."
  else if key = "scroll" then "Scrolling " ++ scrollDirText a ++ "."
  else "Executing action..."

/-- The `getActionConfirmation` table of offscreen.js (own-property value;
`confirmationOutcomeOffscreen` is the prototype-aware model). -/
def getActionConfirmationOffscreen (a : Json) : String :=
  confirmationTextOffscreen (confirmationKey a) a

/-- Prototype-aware model of the offscreen.js confirmation lookup. -/
def confirmationOutcomeOffscreen (a : Json) : ConfirmOutcome :=
  if confirmationKey a ∈ msgsOwnKeys then
    ConfirmOutcome.canned (confirmationTextOffscreen (confirmationKey a) a)
  else if confirmationKey a ∈ objectProtoKeys then ConfirmOutcome.protoLeak
  else ConfirmOutcome.canned "Executing action..."

/-- Result of the action-parsing and response-cleaning step of
`generateResponse`: cleaned display text plus the parsed action, if any. -/
structure GenOut where
  response : String
  action : Option Json

/-- Action extraction of the background.js `generateResponse` (non-greedy
regex): match, `JSON.parse` inside try/catch, strip-and-trim, fall back to
the confirmation string when stripping leaves nothing. -/
def extractNG (raw : String) : GenOut :=
  match matchNG raw with
  | none => { response := raw, action := none }
  | some (a, b) =>
    match Json.parse (sliceStr raw a b) with
    | none => { response := raw, action := none }
    | some j =>
      if jsTruthy j then
        let stripped := jsTrim (removeSlice raw a b)
        { response := if stripped = "" then getActionConfirmation j else stripped,
          action := some j }
      else { response := raw, action := some j }

/-- Action extraction of the offscreen.js `generateResponse` (greedy regex,
offscreen confirmation wording). -/
def extractG (raw : String) : GenOut :=
  match matchG raw with
  | none => { response := raw, action := none }
  | some (a, b) =>
    match Json.parse (sliceStr raw a b) with
    | none => { response := raw, action := none }
    | some j =>
      if jsTruthy j then
        let stripped := jsTrim (removeSlice raw a b)
        { response := if stripped = "" then getActionConfirmationOffscreen j else stripped,
          action := some j }
      else { response := raw, action := some j }

namespace Content

/-- JS `a || b || ... || d` over optional strings, where the empty string is
falsy. -/
def firstTruthy (l : List (Option String)) (d : String) : String :=
  match l with
  | [] => d
  | o :: rest =>
    match o with
    | some s => if s = "" then firstTruthy rest d else s
    | none => firstTruthy rest d

/-- One `tr.zA` row of the Gmail inbox as the content script queries it:
the attribute/text values its selectors can read (`none` models a missing
element or attribute). -/
structure EmailRow where
  senderEmailAttr : Option String
  senderNameAttr : Option String
  senderText : Option String
  subjectText : Option String
  snippetText : Option String
  dateTitleAttr : Option String
  dateText : Option String
  unread : Bool
  starred : Bool

/-- The currently open email as queried from the document (present exactly
when the `.a3s.aiL, .ii.gt` body element exists). -/
structure OpenEmailDom where
  senderEmailAttr : Option String
  senderText : Option String
  headerText : Option String
  bodyText : String

/-- The Gmail DOM as the content script observes it: the email rows, the
open-email element, and presence bits for the elements the write-path
handlers require. -/
structure GmailDom where
  rows : List EmailRow
  openEmail : Option OpenEmailDom
  searchBox : Bool
  scrollContainer : Bool
  replyButton : Bool

/-- Entry of the email list assembled by `getEmailList`. -/
structure EmailInfo where
  index : Nat
  sender : String
  subject : String
  snippet : String
  date : String
  unread : Bool
  starred : Bool

/-- Take the first `n` characters of a string (JS `slice(0, n)`). -/
def strTake (s : String) (n : Nat) : String := ⟨s.data.take n⟩

/-- Number of elements of JS `s.split(/\s+/)`: one more than the number of
maximal whitespace runs (so the empty string still counts 1). -/
def jsSplitWsLen (s : String) : Nat :=
  (s.data.foldl
    (fun (st : Bool × Nat) c =>
      if jsWsChar c then (true, if st.1 then st.2 else st.2 + 1) else (false, st.2))
    (false, 0)).2 + 1

/-- The `getEmailList` row extraction: selector fallbacks with JS `||`
semantics and default strings, limited to the first 50 rows. -/
def emailInfoOfRow (i : Nat) (row : EmailRow) : EmailInfo where
  index := i
  sender := firstTruthy
    [row.senderEmailAttr, row.senderNameAttr, row.senderText.map jsTrim] "Unknown"
  subject := firstTruthy [row.subjectText.map jsTrim] "No subject"
  snippet := firstTruthy [row.snippetText.map jsTrim] ""
  date := firstTruthy [row.dateTitleAttr, row.dateText.map jsTrim] ""
  unread := row.unread
  starred := row.starred

/-- Model of `getEmailList` (content.js). -/
def getEmailList (dom : GmailDom) : List EmailInfo :=
  (dom.rows.take 50).enum.map fun p => emailInfoOfRow p.1 p.2

/-- Open-email record produced by `getOpenEmail`. -/
structure OpenEmailInfo where
  sender : String
  subject : String
  body : String
  wordCount : Nat

/-- Model of `getOpenEmail` (content.js): `none` when the body element is
absent; body trimmed then sliced to 2000 characters; word count via
`split(/\s+/).length || 0`. -/
def getOpenEmail (dom : GmailDom) : Option OpenEmailInfo :=
  dom.openEmail.map fun oe =>
    { sender := firstTruthy [oe.senderEmailAttr, oe.senderText.map jsTrim] "Unknown"
      subject := firstTruthy [oe.headerText.map jsTrim] "No subject"
      body := firstTruthy [some (strTake (jsTrim oe.bodyText) 2000)] ""
      wordCount := jsSplitWsLen (jsTrim oe.bodyText) }

/-- Context object returned by `getEmailContext` (the page URL field is not
modelled; nothing downstream reads it). -/
structure EmailCtx where
  emails : List EmailInfo
  openEmail : Option OpenEmailInfo

/-- Model of `getEmailContext` (content.js). -/
def getEmailContext (dom : GmailDom) : EmailCtx :=
  { emails := getEmailList dom, openEmail := getOpenEmail dom }

/-- Inbox summary assembled by `summarizeInbox`. -/
structure InboxSummary where
  total : Nat
  unread : Nat
  starred : Nat
  topSenders : List String

/-- Email summary assembled by `summarizeEmail`. -/
structure EmailSummary where
  fromSender : String
  subject : String
  wordCount : Nat
  preview : String

/-- Response object sent by the content-script message listener.  JS
responses are schemaless objects; the optional fields cover every shape the
handlers produce (`email` carries the `summarize_email` payload,
`sentimentEmail` the `analyze_sentiment` one — both travel under the JS key
`email`). -/
structure Response where
  success : Option Bool := none
  message : Option String := none
  error : Option String := none
  summary : Option InboxSummary := none
  email : Option EmailSummary := none
  sentimentEmail : Option OpenEmailInfo := none
  emails : Option (List EmailInfo) := none
  emailContext : Option EmailCtx := none

/-- Count sender occurrences in first-insertion order (JS object keyed by
sender; integer-like sender names, which would be reordered by JS object key
rules, do not occur). -/
def countBySender (emails : List EmailInfo) : List (String × Nat) :=
  emails.foldl
    (fun acc e =>
      if acc.any fun p => p.1 = e.sender then
        acc.map fun p => if p.1 = e.sender then (p.1, p.2 + 1) else p
      else acc ++ [(e.sender, 1)])
    []

/-- Stable insertion into a descending-by-count list (ties keep original
order), mirroring the stable JS `sort((a, b) => b[1] - a[1])`. -/
def insertDesc (x : String × Nat) : List (String × Nat) → List (String × Nat)
  | [] => [x]
  | y :: ys => if x.2 ≥ y.2 then x :: y :: ys else y :: insertDesc x ys

/-- Stable descending sort by count. -/
def sortDesc (l : List (String × Nat)) : List (String × Nat) :=
  l.foldr insertDesc []

/-- Model of `summarizeInbox` (content.js). -/
def summarizeInbox (dom : GmailDom) : Response :=
  let emails := getEmailList dom
  { summary := some
      { total := emails.length
        unread := (emails.filter fun e => e.unread).length
        starred := (emails.filter fun e => e.starred).length
        topSenders := ((sortDesc (countBySender emails)).take 3).map fun p => p.1 } }

/-- Model of `summarizeEmail` (content.js). -/
def summarizeEmail (dom : GmailDom) : Response :=
  match getOpenEmail dom with
  | none => { error := some "No email open" }
  | some e =>
    { email := some
        { fromSender := e.sender
          subject := e.subject
          wordCount := e.wordCount
          preview := strTake e.body 300 ++ "..." } }

/-- Model of `searchEmails` (content.js): requires the search box element. -/
def searchEmails (dom : GmailDom) (query : String) : Response :=
  if dom.searchBox then
    { success := some true, message := some ("Searching: " ++ query) }
  else { error := some "Search box not found" }

/-- Model of `filterUnread` (content.js). -/
def filterUnread (dom : GmailDom) : Response :=
  searchEmails dom "is:unread"

/-- Canonical array-index form of a property key: the decimal digits of a
natural number with no leading zeros.  Property keys are compared
textually, so keys like `00`, `1.5` or `-1` never denote an element. -/
def canonicalIndexOfKey (key : String) : Option Nat :=
  match key.data with
  | [] => none
  | d :: ds =>
    if (d :: ds).all isDigit then
      if d = '0' ∧ ds ≠ [] then none else some (digitsToNat (d :: ds))
    else none

/-- Element position denoted by `rows[index]` for a JSON index value: JS
converts the value to the property key `String(index)` (so a numeric
string such as `"0"`, or a one-element array, hits a real row), and the
node list has an element exactly when that key is the canonical decimal of
a position below the length.  A key that instead hits a NodeList prototype
member (e.g. `length` or `item`) yields a truthy non-element, on which the
handler faults at `.click()` into the listener's try/catch, which also
answers with an `{error}` response — the model therefore collapses every
non-element key into the error branch. -/
def jsonAsArrayIndex (j : Json) : Option Nat :=
  canonicalIndexOfKey (jsDisplay j)

/-- Model of `openEmail` (content.js): the row at the requested index must
exist. -/
def openEmailAct (dom : GmailDom) (idx : Json) : Response :=
  match jsonAsArrayIndex idx with
  | some n =>
    if n < dom.rows.length then
      { success := some true, message := some ("Opened email " ++ jsAddOneDisplay idx) }
    else { error := some ("Email " ++ jsAddOneDisplay idx ++ " not found") }
  | none => { error := some ("Email " ++ jsAddOneDisplay idx ++ " not found") }

/-- Model of `scrollInbox` (content.js): requires the `.AO` container. -/
def scrollInbox (dom : GmailDom) (direction : String) : Response :=
  if dom.scrollContainer then
    { success := some true, message := some ("Scrolled " ++ direction) }
  else { error := some "Could not scroll" }

/-- Model of `draftReply` (content.js): requires the reply button; the
delayed compose-body insertion is fire-and-forget and not part of the
response. -/
def draftReply (dom : GmailDom) (_text : String) : Response :=
  if dom.replyButton then
    { success := some true, message := some "Reply drafted" }
  else { error := some "Reply button not found" }

/-- Model of `analyzeSentiment` (content.js). -/
def analyzeSentiment (dom : GmailDom) : Response :=
  match getOpenEmail dom with
  | none => { error := some "No email open" }
  | some e => { sentimentEmail := some e, message := some "AI will analyze sentiment" }

/-- Field `k` of the message params (`params?.k`). -/
def pfield (params : Option Json) (k : String) : Option Json :=
  params.bind fun p => jsonLookup p k

/-- String value of `params?.k || d` as the handlers consume it. -/
def pfieldOrStr (params : Option Json) (k : String) (d : String) : String :=
  match pfield params k with
  | some v => if jsTruthy v then jsDisplay v else d
  | none => d

/-- Value of `params?.index || 0`. -/
def pfieldIdx (params : Option Json) : Json :=
  truthyOr (pfield params "index") (Json.num 0 0)

/-- The action names the dispatch switch recognises. -/
def knownActions : List String :=
  ["get_email_context", "get_emails", "summarize_inbox", "summarize_email",
   "filter_unread", "search", "open_email", "scroll", "draft_reply",
   "analyze_sentiment"]

/-- The content-script message listener (content.js): a total dispatch on
the action value; every branch returns a response object, the default
branch reports the unknown action, and the surrounding try/catch would turn
any fault into an `{error}` response (no handler below can fault). -/
def handleMessage (dom : GmailDom) (action : Json) (params : Option Json) : Response :=
  match action with
  | Json.str s =>
    if s = "get_email_context" then { emailContext := some (getEmailContext dom) }
    else if s = "get_emails" then { emails := some (getEmailList dom) }
    else if s = "summarize_inbox" then summarizeInbox dom
    else if s = "summarize_email" then summarizeEmail dom
    else if s = "filter_unread" then filterUnread dom
    else if s = "search" then searchEmails dom (pfieldOrStr params "query" "")
    else if s = "open_email" then openEmailAct dom (pfieldIdx params)
    else if s = "scroll" then scrollInbox dom (pfieldOrStr params "direction" "down")
    else if s = "draft_reply" then draftReply dom (pfieldOrStr params "text" "")
    else if s = "analyze_sentiment" then analyzeSentiment dom
    else { error := some ("Unknown action: " ++ s) }
  | other => { error := some ("Unknown action: " ++ jsDisplay other) }

end Content

namespace Chat

open Content

/-- Environment of one `chat` request handled by the background service
worker: whether a Gmail tab exists and its content script answers, the DOM
behind that content script, whether `getAISession` would throw (availability
or session-creation failure), and the engine response to a prompt
(`session.prompt`, which resolves with text or rejects with an error
message). -/
structure ChatEnv where
  gmailTab : Bool
  contentReachable : Bool
  dom : GmailDom
  sessionErr : Option String
  generate : String → Except String String

/-- Model of `sendToContentScript` (background.js): no Gmail tab and
messaging failures are returned as `{error}` objects, never thrown. -/
def sendToContentScript (env : ChatEnv) (action : Json) (params : Option Json) :
    Response :=
  if env.gmailTab = false then { error := some "Open Gmail first" }
  else if env.contentReachable = false then { error := some "Refresh Gmail page" }
  else handleMessage env.dom action params

/-- Prompt construction of `generateResponse` (background.js): inbox lines
for a non-empty email list, an open-email block with the body sliced to 300
characters, and the bare user message when no context info accumulated. -/
def buildPrompt (userMessage : String) (ctx : Option EmailCtx) : String :=
  let inboxPart :=
    match ctx with
    | some c =>
      if 0 < c.emails.length then
        "\n\nInbox:\n" ++ String.intercalate "\n"
          (c.emails.enum.map fun p =>
            toString (p.1 + 1) ++ ". " ++ (if p.2.unread then "[UNREAD] " else "") ++
            "From: " ++ p.2.sender ++ " | " ++ p.2.subject)
      else ""
    | none => ""
  let openPart :=
    match ctx.bind fun c => c.openEmail with
    | some e =>
      "\n\nOpen email:\nFrom: " ++ e.sender ++ "\nSubject: " ++ e.subject ++ "\n" ++
      strTake e.body 300 ++ "..."
    | none => ""
  let contextInfo := inboxPart ++ openPart
  if contextInfo = "" then userMessage else userMessage ++ "\n" ++ contextInfo

/-- The prompt the `chat` case sends to the engine: user message plus the
context fetched from the content script (absent on a context-fetch
failure, whose `{error}` reply has no `emailContext` field). -/
def chatPrompt (env : ChatEnv) (userMessage : String) : String :=
  buildPrompt userMessage
    (sendToContentScript env (Json.str "get_email_context") none).emailContext

/-- Model of `generateResponse` (background.js): session acquisition and
`session.prompt` may reject (modelled as `Except.error`, rethrown to the
listener); on success the action-extraction step of `extractNG` runs. -/
def generateResponse (env : ChatEnv) (userMessage : String) (ctx : Option EmailCtx) :
    Except String GenOut :=
  match env.sessionErr with
  | some m => .error m
  | none =>
    match env.generate (buildPrompt userMessage ctx) with
    | .error m => .error m
    | .ok raw => .ok (extractNG raw)

/-- Model of `executeAction` (background.js and the popup variants): a
missing or falsy `action` field returns `null` without messaging the
content script; otherwise the action name and `params || \x7b\x7d` are
dispatched. -/
def executeAction (env : ChatEnv) (action : Option Json) : Option Response :=
  match action with
  | none => none
  | some j =>
    match jsonLookup j "action" with
    | some v =>
      if jsTruthy v then
        some (sendToContentScript env v (some (truthyOr (jsonLookup j "params") (Json.obj []))))
      else none
    | none => none

/-- Reply envelope the `chat` case sends back to the popup.  The catch
branch of the listener sends a bare `{error}` object — its `success` field
is `none` (JS `undefined`), not `false`. -/
structure ChatEnvelope where
  success : Option Bool := none
  response : Option String := none
  action : Option Json := none
  actionResult : Option Response := none
  error : Option String := none

/-- Success envelope assembled by the `chat` case: the action result is
attached only when the parsed action is truthy (`if (result.action)`), and
`executeAction` may still return `null`. -/
def chatAttachResult (env : ChatEnv) (r : GenOut) : ChatEnvelope :=
  { success := some true
    response := some r.response
    action := r.action
    actionResult :=
      match r.action with
      | some j => if jsTruthy j then executeAction env (some j) else none
      | none => none }

/-- The `chat` case of the background message listener: fetch context
(best-effort), generate, execute any parsed action, and answer with the
success envelope; any rejection is caught and answered as a bare `{error}`
object. -/
def chatHandler (env : ChatEnv) (userMessage : String) : ChatEnvelope :=
  match generateResponse env userMessage
      (sendToContentScript env (Json.str "get_email_context") none).emailContext with
  | .error m => { error := some m }
  | .ok r => chatAttachResult env r

/-- Context-fetch result of the popup-hosted Gemini Nano variant
(popup.js `getEmailContext`): an `{error}` value, a context object, or
`null`. -/
inductive PopupCtxRes where
  | fetchError (msg : String) : PopupCtxRes
  | fetched (c : EmailCtx) : PopupCtxRes

/-- Prompt construction of the popup-hosted variant (popup.js
`generateResponse`): a context-fetch `{error}` is folded into the prompt as
an explanatory note; otherwise inbox lines (first 10 emails) and the
open-email block are appended. -/
def popupBuildPrompt (userMessage : String) (r : Option PopupCtxRes) : String :=
  match r with
  | some (.fetchError m) =>
    if m = "" then userMessage
    else userMessage ++ "\n\n[Note: " ++ m ++ "]"
  | some (.fetched c) =>
    let withInbox :=
      if 0 < c.emails.length then
        userMessage ++ "\n\nInbox:\n" ++ String.intercalate "\n"
          ((c.emails.take 10).enum.map fun p =>
            toString (p.1 + 1) ++ ". " ++ (if p.2.unread then "[UNREAD] " else "") ++
            "From: " ++ p.2.sender ++ " | " ++ p.2.subject)
      else userMessage
    match c.openEmail with
    | some e =>
      withInbox ++ "\n\nOpen email:\nFrom: " ++ e.sender ++ "\nSubject: " ++ e.subject ++
      "\n" ++ strTake e.body 300 ++ "..."
    | none => withInbox
  | none => userMessage

end Chat

namespace UI

/-- Interaction-surface state of the popup chat variants: engine readiness,
the in-flight flag, and the current text of the input box. -/
structure UIState where
  aiReady : Bool
  isGenerating : Bool
  inputText : String

/-- Model of `handleSend` (popup variants): the returned value is the user
text a new generation request is started with; `none` means the guard
returned without initiating anything (blocked, not queued). -/
def handleSend (st : UIState) : Option String :=
  let text := jsTrim st.inputText
  if text = "" ∨ st.aiReady = false ∨ st.isGenerating then none
  else some text

/-- Model of `handleKeydown`: plain Enter triggers `handleSend`; any other
key initiates nothing. -/
def handleKeydown (key : String) (shiftKey : Bool) (st : UIState) : Option String :=
  if key = "Enter" ∧ shiftKey = false then handleSend st else none

/-- Canned phrases of the quick-action buttons. -/
def quickActionMessage (action : String) : String :=
  if action = "summarize_inbox" then "Summarize my inbox"
  else if action = "filter_unread" then "Show my unread emails"
  else if action = "summarize_email" then "Summarize the current email"
  else action

/-- Model of `handleQuickAction`: guarded by the same readiness and busy
flags. -/
def handleQuickAction (action : String) (st : UIState) : Option String :=
  if st.aiReady = false ∨ st.isGenerating then none
  else some (quickActionMessage action)

/-- The `disabled` value `handleInput` assigns to the send button:
`!aiReady || !text.trim() || isGenerating`. -/
def sendBtnDisabledAfterInput (st : UIState) : Bool :=
  !st.aiReady || jsTrim st.inputText = "" || st.isGenerating

end UI

namespace Engine

/-!
Interleaving model of the lazy singleton initialization shared by
`getAISession` (background.js) and `initializeEngine` (offscreen.js):

```
if (handle) return handle;
if (loadingFlag) { while (loadingFlag) await sleep(100); return handle; }
loadingFlag = true;
try { await availabilityCheck(); handle = await create(...); return handle; }
finally { loadingFlag = false; }
```

Each caller is a task; suspension points (`await`) are the only places
another task may run, so the code between two awaits executes atomically.
The model covers the successful-initialization runs the single-flight claim
quantifies over (on a failed load the function rethrows after clearing the
flag; no duplicate load arises there either, but a later retry is a new
initialization).  Handles are numbered by the order in which underlying
`create` calls are issued, so "all callers receive the same handle" becomes
"every finished task holds handle 1".
-/

/-- Program counter of one caller of the initialization function. -/
inductive TPC where
  /-- About to execute the synchronous entry section. -/
  | entry : TPC
  /-- Inside the `while (loadingFlag)` polling loop. -/
  | waiting : TPC
  /-- Holding the flag, awaiting the availability check. -/
  | checking : TPC
  /-- Holding the flag, awaiting the underlying `create` call `id`. -/
  | creating (id : Nat) : TPC
  /-- Returned with the given handle (`none` would be a returned `null`). -/
  | finished (r : Option Nat) : TPC
deriving DecidableEq

/-- Shared state of the execution context plus the task pool. -/
structure EngState where
  session : Option Nat
  flag : Bool
  loads : Nat
  tasks : List TPC

/-- One atomic step of some task.  The task list is split as
`l ++ task :: r` to name the stepping task. -/
inductive EngStep : EngState → EngState → Prop where
  /-- Entry with the handle already cached: return it at once. -/
  | entryHit (h : Nat) (fl : Bool) (loads : Nat) (l r : List TPC) :
      EngStep ⟨some h, fl, loads, l ++ TPC.entry :: r⟩
        ⟨some h, fl, loads, l ++ TPC.finished (some h) :: r⟩
  /-- Entry while a load is pending: join the polling loop. -/
  | entryWait (loads : Nat) (l r : List TPC) :
      EngStep ⟨none, true, loads, l ++ TPC.entry :: r⟩
        ⟨none, true, loads, l ++ TPC.waiting :: r⟩
  /-- Entry with no handle and no pending load: set the flag and start the
  availability check. -/
  | entryClaim (loads : Nat) (l r : List TPC) :
      EngStep ⟨none, false, loads, l ++ TPC.entry :: r⟩
        ⟨none, true, loads, l ++ TPC.checking :: r⟩
  /-- One polling iteration that still sees the flag set. -/
  | waitSpin (s : Option Nat) (loads : Nat) (l r : List TPC) :
      EngStep ⟨s, true, loads, l ++ TPC.waiting :: r⟩
        ⟨s, true, loads, l ++ TPC.waiting :: r⟩
  /-- The poll sees the flag cleared: return the shared handle. -/
  | waitExit (s : Option Nat) (loads : Nat) (l r : List TPC) :
      EngStep ⟨s, false, loads, l ++ TPC.waiting :: r⟩
        ⟨s, false, loads, l ++ TPC.finished s :: r⟩
  /-- The availability check resolves available; the underlying `create`
  call is issued (counted by `loads`). -/
  | checkDone (s : Option Nat) (fl : Bool) (loads : Nat) (l r : List TPC) :
      EngStep ⟨s, fl, loads, l ++ TPC.checking :: r⟩
        ⟨s, fl, loads + 1, l ++ TPC.creating (loads + 1) :: r⟩
  /-- The `create` call resolves: store the handle, clear the flag in the
  `finally`, and return. -/
  | createDone (s : Option Nat) (fl : Bool) (id loads : Nat) (l r : List TPC) :
      EngStep ⟨s, fl, loads, l ++ TPC.creating id :: r⟩
        ⟨some id, false, loads, l ++ TPC.finished (some id) :: r⟩

/-- Initial state: no handle, flag clear, no loads issued, `n` callers about
to enter. -/
def engInit (n : Nat) : EngState :=
  ⟨none, false, 0, List.replicate n TPC.entry⟩

/-- States reachable by interleaving the callers. -/
def EngReach (n : Nat) (s : EngState) : Prop :=
  Relation.ReflTransGen EngStep (engInit n) s

/-- Is this task between claiming the flag and completing the load? -/
def inFlight : TPC → Bool
  | TPC.checking => true
  | TPC.creating _ => true
  | _ => false

/-- Is this task awaiting the underlying `create` call? -/
def isCreating : TPC → Bool
  | TPC.creating _ => true
  | _ => false

/-- Number of callers currently inside the guarded initialization section. -/
def inFlightCount (ts : List TPC) : Nat := ts.countP inFlight

/-- Number of pending underlying `create` calls. -/
def creatingCount (ts : List TPC) : Nat := ts.countP isCreating

/-- Inductive invariant of the single-flight protocol. -/
def EngInv (s : EngState) : Prop :=
  inFlightCount s.tasks = s.flag.toNat ∧
  s.loads = creatingCount s.tasks + (match s.session with | some _ => 1 | none => 0) ∧
  (∀ h, s.session = some h → s.flag = false ∧ h = 1) ∧
  (∀ t ∈ s.tasks, t = TPC.waiting → (s.flag = true ∨ s.session = some 1)) ∧
  (∀ id, TPC.creating id ∈ s.tasks → id = s.loads ∧ s.session = none) ∧
  (∀ res, TPC.finished res ∈ s.tasks → res = some 1)

end Engine

/-! ### Helper lemmas -/

/-- A string with a non-empty left part is non-empty. -/
theorem strAppend_ne_empty (p x : String) (hp : p ≠ "") : p ++ x ≠ "" := by
  intro h
  apply hp
  have hd := congrArg String.data h
  rw [String.data_append] at hd
  rcases List.append_eq_nil.mp hd with ⟨h1, _⟩
  cases p
  simp_all

/-- Every entry of the background confirmation table is non-empty. -/
theorem confirmationText_ne_empty (key : String) (a : Json) :
    confirmationText key a ≠ "" := by
  unfold confirmationText
  split_ifs
  all_goals first
    | decide
    | exact strAppend_ne_empty _ _ (by decide)
    | exact strAppend_ne_empty _ _ (strAppend_ne_empty _ _ (by decide))

/-- The background confirmation string is never empty. -/
theorem getActionConfirmation_ne_empty (a : Json) : getActionConfirmation a ≠ "" :=
  confirmationText_ne_empty _ a

/-- Outside the eight own entries, the own-property lookup falls back. -/
theorem confirmationText_of_not_own (key : String) (a : Json)
    (h : key ∉ msgsOwnKeys) : confirmationText key a = "Processing..." := by
  simp only [msgsOwnKeys, List.mem_cons, List.not_mem_nil, or_false, not_or] at h
  obtain ⟨h1, h2, h3, h4, h5, h6, h7, h8⟩ := h
  simp [confirmationText, h1, h2, h3, h4, h5, h6, h7, h8]

/-- Unfolding of the non-greedy extraction once the regex has matched. -/
theorem extractNG_eq_of_matched (s : String) (a b : Nat)
    (hm : matchNG s = some (a, b)) :
    extractNG s =
      match Json.parse (sliceStr s a b) with
      | none => { response := s, action := none }
      | some j =>
        if jsTruthy j then
          { response := if jsTrim (removeSlice s a b) = "" then getActionConfirmation j
                        else jsTrim (removeSlice s a b),
            action := some j }
        else { response := s, action := some j } := by
  unfold extractNG
  rw [hm]

/-- Unfolding of the greedy extraction once the regex has matched. -/
theorem extractG_eq_of_matched (s : String) (a b : Nat)
    (hm : matchG s = some (a, b)) :
    extractG s =
      match Json.parse (sliceStr s a b) with
      | none => { response := s, action := none }
      | some j =>
        if jsTruthy j then
          { response := if jsTrim (removeSlice s a b) = "" then getActionConfirmationOffscreen j
                        else jsTrim (removeSlice s a b),
            action := some j }
        else { response := s, action := some j } := by
  unfold extractG
  rw [hm]

/-! ### Claim theorems -/

/-- The exact generated text of Scenario B of the specification. -/
def scenarioBText : String :=
  "Here is a summary.\n\x7b\"action\":\"summarize_inbox\",\"params\":\x7b\x7d\x7d"

/-- C1: the claim states that a well-formed action object such as the
Scenario B text yields a parsed action and the cleaned display text.  The
background.js extraction (non-greedy regex) instead matches only up to the
first closing brace after the quoted `action` key — here the closing brace
of the empty `params` object — so `JSON.parse` receives an unbalanced
substring, fails, and the whole response (including the JSON blob) is
returned as prose with no action.  The greedy offscreen.js variant handles
the same text exactly as the claim describes, confirming the non-greedy
regex is a slip. -/
theorem c1_scenarioB_extraction_bug :
    extractNG scenarioBText = { response := scenarioBText, action := none } ∧
    (extractG scenarioBText).response = "Here is a summary." ∧
    (extractG scenarioBText).action =
      some (Json.obj [("action", Json.str "summarize_inbox"), ("params", Json.obj [])]) :=
  ⟨rfl, rfl, rfl⟩

/-- C3: when the brace-delimited match is malformed (unbalanced braces or
invalid JSON), `JSON.parse` fails inside the try/catch, the action stays
absent, and the untouched response text is returned as the display text —
no error escapes. -/
theorem c3_malformed_action_is_prose (s : String) (a b : Nat)
    (hm : matchNG s = some (a, b))
    (hp : Json.parse (sliceStr s a b) = none) :
    extractNG s = { response := s, action := none } := by
  rw [extractNG_eq_of_matched s a b hm, hp]

/-- Witness for C3 at a concrete malformed response text. -/
theorem c3_malformed_action_is_prose_witness :
    matchNG "x \x7b\"action\" oops\x7d y" = some (2, 17) ∧
    Json.parse (sliceStr "x \x7b\"action\" oops\x7d y" 2 17) = none ∧
    extractNG "x \x7b\"action\" oops\x7d y" =
      { response := "x \x7b\"action\" oops\x7d y", action := none } :=
  ⟨rfl, rfl, c3_malformed_action_is_prose _ 2 17 rfl rfl⟩

/-- C7 (counterexample): the claim asserts the display text is always the
canned confirmation keyed by the action name.  For the response text
consisting exactly of an action object named `toString`, the claim's
premise holds (the action is parsed and stripping leaves the empty
string), but `msgs["toString"]` finds the inherited
`Object.prototype.toString` function, which is truthy and passes through
the `||` guard: the program's display value is that function, not any
canned string. -/
theorem c7_prototype_key_leaks :
    matchNG "\x7b\"action\":\"toString\"\x7d" = some (0, 21) ∧
    Json.parse (sliceStr "\x7b\"action\":\"toString\"\x7d" 0 21) =
      some (Json.obj [("action", Json.str "toString")]) ∧
    jsTruthy (Json.obj [("action", Json.str "toString")]) = true ∧
    jsTrim (removeSlice "\x7b\"action\":\"toString\"\x7d" 0 21) = "" ∧
    confirmationOutcome (Json.obj [("action", Json.str "toString")]) =
      ConfirmOutcome.protoLeak :=
  ⟨rfl, rfl, rfl, rfl, rfl⟩

/-- C7 (amended): when an action is parsed, stripping it (plus whitespace)
leaves the empty string, and the action name is not an `Object.prototype`
member name, the display text is the canned confirmation string keyed by
the action name and is never empty; under that same proviso the
own-property table agrees with the prototype-aware lookup model. -/
theorem c7_empty_strip_falls_back (s : String) (a b : Nat) (j : Json)
    (hm : matchNG s = some (a, b))
    (hp : Json.parse (sliceStr s a b) = some j)
    (ht : jsTruthy j = true)
    (hs : jsTrim (removeSlice s a b) = "")
    (hkey : confirmationKey j ∉ objectProtoKeys) :
    (extractNG s).response = getActionConfirmation j ∧
    (extractNG s).response ≠ "" ∧
    confirmationOutcome j = ConfirmOutcome.canned (getActionConfirmation j) := by
  have hr : (extractNG s).response = getActionConfirmation j := by
    rw [extractNG_eq_of_matched s a b hm, hp]
    simp [ht, hs]
  refine ⟨hr, hr ▸ getActionConfirmation_ne_empty j, ?_⟩
  unfold confirmationOutcome getActionConfirmation
  by_cases hown : confirmationKey j ∈ msgsOwnKeys
  · simp [hown]
  · simp [hown, hkey, confirmationText_of_not_own _ j hown]

/-- Witness for C7: a response that is exactly an action object with an
ordinary action name. -/
theorem c7_empty_strip_falls_back_witness :
    matchNG "\x7b\"action\":\"filter_unread\"\x7d" = some (0, 26) ∧
    (extractNG "\x7b\"action\":\"filter_unread\"\x7d").response =
      "Showing unread emails..." ∧
    confirmationOutcome (Json.obj [("action", Json.str "filter_unread")]) =
      ConfirmOutcome.canned "Showing unread emails..." := by
  have h := c7_empty_strip_falls_back "\x7b\"action\":\"filter_unread\"\x7d" 0 26
    (Json.obj [("action", Json.str "filter_unread")]) rfl rfl rfl rfl (by decide)
  refine ⟨rfl, ?_, ?_⟩
  · rw [h.1]
    rfl
  · rw [h.2.2]
    rfl

/-- C9 (counterexample): the non-greedy (background.js) and greedy
(offscreen.js) extraction variants disagree on a well-formed action
response: the non-greedy match truncates before the final brace and parses
nothing, while the greedy match parses the action. -/
theorem c9_variants_disagree :
    (extractNG "Opening it.\n\x7b\"action\":\"open_email\",\"params\":\x7b\"index\":0\x7d\x7d").action.isSome = false ∧
    (extractG "Opening it.\n\x7b\"action\":\"open_email\",\"params\":\x7b\"index\":0\x7d\x7d").action.isSome = true :=
  ⟨rfl, rfl⟩

/-- C9 (amended): the two variants agree whenever their regexes select the
same match and stripping the match leaves non-empty text (the divergences
forced by the counterexample: different match ends, and different
confirmation wording when stripping leaves nothing). -/
theorem c9_variants_agree_on_common_matches (s : String)
    (hm : matchNG s = matchG s)
    (hs : ∀ a b, matchNG s = some (a, b) → jsTrim (removeSlice s a b) ≠ "") :
    extractNG s = extractG s := by
  cases hmm : matchNG s with
  | none =>
    have hg : matchG s = none := by rw [← hm, hmm]
    unfold extractNG extractG
    rw [hmm, hg]
  | some p =>
    obtain ⟨a, b⟩ := p
    have hg : matchG s = some (a, b) := by rw [← hm, hmm]
    rw [extractNG_eq_of_matched s a b hmm, extractG_eq_of_matched s a b hg]
    cases hp : Json.parse (sliceStr s a b) with
    | none => rfl
    | some j =>
      cases ht : jsTruthy j with
      | false => simp [ht]
      | true => simp [ht, hs a b hmm]

/-- Witness for C9 (amended) at a concrete text where both regexes match
the same range and strip to non-empty prose. -/
theorem c9_variants_agree_witness :
    matchNG "Hi \x7b\"action\":\"filter_unread\"\x7d ok" =
      matchG "Hi \x7b\"action\":\"filter_unread\"\x7d ok" ∧
    extractNG "Hi \x7b\"action\":\"filter_unread\"\x7d ok" =
      extractG "Hi \x7b\"action\":\"filter_unread\"\x7d ok" := by
  refine ⟨rfl, c9_variants_agree_on_common_matches _ rfl ?_⟩
  intro a b hab
  have hv : matchNG "Hi \x7b\"action\":\"filter_unread\"\x7d ok" = some (3, 29) := rfl
  rw [hv] at hab
  obtain ⟨rfl, rfl⟩ : a = 3 ∧ b = 29 := by
    obtain ⟨h1, h2⟩ := Prod.mk.injEq .. ▸ Option.some.inj hab
    exact ⟨h1.symm, h2.symm⟩
  decide

/-- C10: a parsed action whose `action` field is absent or falsy makes
`executeAction` return `null` without dispatching anything to the content
script (and hence no action result is produced for the envelope). -/
theorem c10_executeAction_falsy_dispatches_nothing (env : Chat.ChatEnv)
    (a : Option Json)
    (h : a = none ∨ ∃ j, a = some j ∧
      (jsonLookup j "action" = none ∨
       ∃ v, jsonLookup j "action" = some v ∧ jsTruthy v = false)) :
    Chat.executeAction env a = none := by
  rcases h with rfl | ⟨j, rfl, h⟩
  · rfl
  · rcases h with h | ⟨v, hv, ht⟩
    · simp [Chat.executeAction, h]
    · simp [Chat.executeAction, hv, ht]

/-- An empty Gmail DOM for the concrete witnesses. -/
def emptyDom : Content.GmailDom :=
  { rows := [], openEmail := none, searchBox := false,
    scrollContainer := false, replyButton := false }

/-- A chat environment with no Gmail tab and an echoing engine. -/
def envNoTab : Chat.ChatEnv :=
  { gmailTab := false, contentReachable := false, dom := emptyDom,
    sessionErr := none, generate := fun p => .ok p }

/-- A chat environment with a Gmail tab whose content script does not
answer, and an echoing engine. -/
def envUnreachable : Chat.ChatEnv :=
  { gmailTab := true, contentReachable := false, dom := emptyDom,
    sessionErr := none, generate := fun p => .ok p }

/-- Witness for C10: an action object with an empty (falsy) name. -/
theorem c10_executeAction_falsy_witness :
    Chat.executeAction envNoTab (some (Json.obj [("action", Json.str "")])) = none :=
  c10_executeAction_falsy_dispatches_nothing envNoTab _
    (Or.inr ⟨_, rfl, Or.inr ⟨Json.str "", rfl, rfl⟩⟩)

/-- C8: while the engine is not ready or a request is in flight, none of
the user-triggered send paths (send button, Enter key, quick-action button)
initiates a generation request, and the send button is disabled by
`handleInput`. -/
theorem c8_busy_or_not_ready_blocks_send (st : UI.UIState)
    (h : st.aiReady = false ∨ st.isGenerating = true) :
    UI.handleSend st = none ∧
    (∀ key shiftKey, UI.handleKeydown key shiftKey st = none) ∧
    (∀ action, UI.handleQuickAction action st = none) ∧
    UI.sendBtnDisabledAfterInput st = true := by
  have hsend : UI.handleSend st = none := by
    rcases h with h | h <;> simp [UI.handleSend, h]
  refine ⟨hsend, ?_, ?_, ?_⟩
  · intro key shiftKey
    unfold UI.handleKeydown
    split
    · exact hsend
    · rfl
  · intro action
    rcases h with h | h <;> simp [UI.handleQuickAction, h]
  · rcases h with h | h <;> simp [UI.sendBtnDisabledAfterInput, h]

/-- Witness for C8: engine still loading, input non-empty. -/
theorem c8_busy_or_not_ready_blocks_send_witness :
    UI.handleSend { aiReady := false, isGenerating := false, inputText := "hello" } = none ∧
    UI.handleKeydown "Enter" false
      { aiReady := false, isGenerating := false, inputText := "hello" } = none ∧
    UI.handleQuickAction "summarize_inbox"
      { aiReady := false, isGenerating := false, inputText := "hello" } = none ∧
    UI.sendBtnDisabledAfterInput
      { aiReady := false, isGenerating := false, inputText := "hello" } = true := by
  have h := c8_busy_or_not_ready_blocks_send
    { aiReady := false, isGenerating := false, inputText := "hello" } (Or.inl rfl)
  exact ⟨h.1, h.2.1 "Enter" false, h.2.2.1 "summarize_inbox", h.2.2.2⟩

/-- C6: the Page Automation Agent dispatch is total and defensive: an
unknown action name answers with the unknown-action error object, and each
handler whose required element is missing (search box, email row at the
requested index, scroll container, reply button, open email body) answers
with an `{error}` result instead of faulting. -/
theorem c6_content_handler_defensive (dom : Content.GmailDom) (params : Option Json) :
    (∀ s, s ∉ Content.knownActions →
      Content.handleMessage dom (Json.str s) params =
        { error := some ("Unknown action: " ++ s) }) ∧
    (dom.searchBox = false →
      (Content.handleMessage dom (Json.str "search") params).error =
        some "Search box not found" ∧
      (Content.handleMessage dom (Json.str "filter_unread") params).error =
        some "Search box not found") ∧
    (∀ n, Content.jsonAsArrayIndex (Content.pfieldIdx params) = some n →
      dom.rows.length ≤ n →
      (Content.handleMessage dom (Json.str "open_email") params).error.isSome = true) ∧
    (Content.jsonAsArrayIndex (Content.pfieldIdx params) = none →
      (Content.handleMessage dom (Json.str "open_email") params).error.isSome = true) ∧
    (dom.scrollContainer = false →
      (Content.handleMessage dom (Json.str "scroll") params).error =
        some "Could not scroll") ∧
    (dom.replyButton = false →
      (Content.handleMessage dom (Json.str "draft_reply") params).error =
        some "Reply button not found") ∧
    (dom.openEmail = none →
      (Content.handleMessage dom (Json.str "summarize_email") params).error =
        some "No email open" ∧
      (Content.handleMessage dom (Json.str "analyze_sentiment") params).error =
        some "No email open") := by
  refine ⟨?_, ?_, ?_, ?_, ?_, ?_, ?_⟩
  · intro s hs
    simp only [Content.knownActions, List.mem_cons, List.not_mem_nil, or_false,
      not_or] at hs
    obtain ⟨h1, h2, h3, h4, h5, h6, h7, h8, h9, h10⟩ := hs
    simp [Content.handleMessage, h1, h2, h3, h4, h5, h6, h7, h8, h9, h10]
  · intro h
    constructor
    · show (Content.searchEmails dom (Content.pfieldOrStr params "query" "")).error = _
      simp [Content.searchEmails, h]
    · show (Content.filterUnread dom).error = _
      simp [Content.filterUnread, Content.searchEmails, h]
  · intro n hn hlen
    show (Content.openEmailAct dom (Content.pfieldIdx params)).error.isSome = true
    simp [Content.openEmailAct, hn, Nat.not_lt_of_ge hlen]
  · intro hn
    show (Content.openEmailAct dom (Content.pfieldIdx params)).error.isSome = true
    simp [Content.openEmailAct, hn]
  · intro h
    show (Content.scrollInbox dom (Content.pfieldOrStr params "direction" "down")).error = _
    simp [Content.scrollInbox, h]
  · intro h
    show (Content.draftReply dom (Content.pfieldOrStr params "text" "")).error = _
    simp [Content.draftReply, h]
  · intro h
    have hopen : Content.getOpenEmail dom = none := by
      simp [Content.getOpenEmail, h]
    constructor
    · show (Content.summarizeEmail dom).error = _
      simp [Content.summarizeEmail, hopen]
    · show (Content.analyzeSentiment dom).error = _
      simp [Content.analyzeSentiment, hopen]

/-- Witness for C6 on the empty DOM with no params. -/
theorem c6_content_handler_defensive_witness :
    Content.handleMessage emptyDom (Json.str "fly_to_moon") none =
      { error := some "Unknown action: fly_to_moon" } ∧
    (Content.handleMessage emptyDom (Json.str "search") none).error =
      some "Search box not found" ∧
    (Content.handleMessage emptyDom (Json.str "open_email") none).error.isSome = true ∧
    (Content.handleMessage emptyDom (Json.str "scroll") none).error =
      some "Could not scroll" ∧
    (Content.handleMessage emptyDom (Json.str "draft_reply") none).error =
      some "Reply button not found" ∧
    (Content.handleMessage emptyDom (Json.str "summarize_email") none).error =
      some "No email open" := by
  have h := c6_content_handler_defensive emptyDom none
  exact ⟨h.1 "fly_to_moon" (by decide), (h.2.1 rfl).1,
    h.2.2.1 0 rfl (Nat.le_refl 0), (h.2.2.2.2.1 rfl), (h.2.2.2.2.2.1 rfl),
    (h.2.2.2.2.2.2 rfl).1⟩

/-- C4 (counterexample): with no Gmail tab open, the background worker
passes the bare user message to the engine — no explanatory note is folded
into the prompt (the claim asserts one is), even though the request still
completes successfully. -/
theorem c4_no_note_in_background_prompt :
    Chat.chatPrompt envNoTab "Summarize my inbox" = "Summarize my inbox" ∧
    (Chat.chatHandler envNoTab "Summarize my inbox").success = some true :=
  ⟨rfl, rfl⟩

/-- C4 (amended): when no Gmail tab is open, or the content script in the
open tab is unreachable, the context-fetch failure is returned as the
matching `{error}` value rather than thrown, the chat request still
completes with a success envelope and no exception, and the background
worker simply omits the context from the prompt; the explanatory
`[Note: ...]` is folded into the prompt only by the popup-hosted variant. -/
theorem c4_no_gmail_tab_degrades_gracefully (env : Chat.ChatEnv) (u raw m : String)
    (hfail : env.gmailTab = false ∨ env.contentReachable = false)
    (hsess : env.sessionErr = none)
    (hgen : env.generate u = .ok raw)
    (hm : m ≠ "") :
    (Chat.sendToContentScript env (Json.str "get_email_context") none).error =
      some (if env.gmailTab then "Refresh Gmail page" else "Open Gmail first") ∧
    Chat.chatPrompt env u = u ∧
    (Chat.chatHandler env u).success = some true ∧
    (Chat.chatHandler env u).error = none ∧
    (Chat.chatHandler env u).response = some (extractNG raw).response ∧
    Chat.popupBuildPrompt u (some (.fetchError m)) = u ++ "\n\n[Note: " ++ m ++ "]" := by
  have hctx : Chat.sendToContentScript env (Json.str "get_email_context") none =
      { error := some (if env.gmailTab then "Refresh Gmail page" else "Open Gmail first") } := by
    cases htab : env.gmailTab with
    | false => simp [Chat.sendToContentScript, htab]
    | true =>
      have hre : env.contentReachable = false := by
        rcases hfail with h | h
        · rw [htab] at h
          cases h
        · exact h
      simp [Chat.sendToContentScript, htab, hre]
  have hemail : (Chat.sendToContentScript env (Json.str "get_email_context") none).emailContext
      = none := by rw [hctx]
  have hbp : Chat.buildPrompt u none = u := rfl
  have hprompt : Chat.chatPrompt env u = u := by
    unfold Chat.chatPrompt
    rw [hemail]
    exact hbp
  have hgen2 : Chat.generateResponse env u
      (Chat.sendToContentScript env (Json.str "get_email_context") none).emailContext =
      .ok (extractNG raw) := by
    rw [hemail]
    unfold Chat.generateResponse
    rw [hsess, hbp, hgen]
  have hhandler : Chat.chatHandler env u = Chat.chatAttachResult env (extractNG raw) := by
    unfold Chat.chatHandler
    rw [hgen2]
  refine ⟨by rw [hctx], hprompt, ?_, ?_, ?_, ?_⟩
  · rw [hhandler]; rfl
  · rw [hhandler]; rfl
  · rw [hhandler]; rfl
  · simp [Chat.popupBuildPrompt, hm]

/-- Witness for C4 (amended) on the concrete no-tab and
unreachable-content-script environments. -/
theorem c4_no_gmail_tab_degrades_gracefully_witness :
    (Chat.sendToContentScript envNoTab (Json.str "get_email_context") none).error =
      some "Open Gmail first" ∧
    Chat.chatPrompt envNoTab "hello" = "hello" ∧
    (Chat.chatHandler envNoTab "hello").success = some true ∧
    (Chat.sendToContentScript envUnreachable (Json.str "get_email_context") none).error =
      some "Refresh Gmail page" ∧
    Chat.chatPrompt envUnreachable "hello" = "hello" ∧
    (Chat.chatHandler envUnreachable "hello").success = some true ∧
    Chat.popupBuildPrompt "hello" (some (.fetchError "Open Gmail first")) =
      "hello" ++ "\n\n[Note: " ++ "Open Gmail first" ++ "]" := by
  have h1 := c4_no_gmail_tab_degrades_gracefully envNoTab "hello" "hello"
    "Open Gmail first" (Or.inl rfl) rfl rfl (by decide)
  have h2 := c4_no_gmail_tab_degrades_gracefully envUnreachable "hello" "hello"
    "Open Gmail first" (Or.inr rfl) rfl rfl (by decide)
  exact ⟨h1.1, h1.2.1, h1.2.2.1, h2.1, h2.2.1, h2.2.2.1, h1.2.2.2.2.2⟩

/-- C5 (counterexample): when the engine faults, the background listener
answers with a bare `{error}` object: the `success` field is absent
(`undefined`), not present-and-`false` as the claim states. -/
theorem c5_error_envelope_lacks_success :
    (Chat.chatHandler
        { gmailTab := false, contentReachable := false, dom := emptyDom,
          sessionErr := some "boom", generate := fun _ => .error "boom" }
        "hi").error = some "boom" ∧
    (Chat.chatHandler
        { gmailTab := false, contentReachable := false, dom := emptyDom,
          sessionErr := some "boom", generate := fun _ => .error "boom" }
        "hi").success = none ∧
    (Chat.chatHandler
        { gmailTab := false, contentReachable := false, dom := emptyDom,
          sessionErr := some "boom", generate := fun _ => .error "boom" }
        "hi").success ≠ some false :=
  ⟨rfl, rfl, by intro h; cases h⟩

/-- C5 (amended): every unrecoverable chat fault (session-creation failure
or generation rejection) is caught by the listener and converted to a
returned `{error}` envelope rather than rethrown; the envelope carries the
fault message and omits the `success` field (JS `undefined`, falsy to the
UI) instead of setting it to `false`. -/
theorem c5_chat_fault_converted_to_error_envelope (env : Chat.ChatEnv) (u m : String)
    (h : env.sessionErr = some m ∨
      (env.sessionErr = none ∧ env.generate (Chat.chatPrompt env u) = .error m)) :
    Chat.chatHandler env u = { error := some m } ∧
    (Chat.chatHandler env u).success = none ∧
    (Chat.chatHandler env u).error = some m := by
  have hh : Chat.chatHandler env u = { error := some m } := by
    have hgen2 : Chat.generateResponse env u
        (Chat.sendToContentScript env (Json.str "get_email_context") none).emailContext =
        .error m := by
      unfold Chat.generateResponse
      rcases h with h | ⟨h1, h2⟩
      · rw [h]
      · unfold Chat.chatPrompt at h2
        rw [h1, h2]
    unfold Chat.chatHandler
    rw [hgen2]
  exact ⟨hh, by rw [hh], by rw [hh]⟩

/-- Witness for C5 (amended) at a concrete faulting environment. -/
theorem c5_chat_fault_converted_witness :
    Chat.chatHandler
      { gmailTab := true, contentReachable := false, dom := emptyDom,
        sessionErr := none, generate := fun _ => .error "engine exploded" }
      "hi" = { error := some "engine exploded" } :=
  (c5_chat_fault_converted_to_error_envelope _ "hi" "engine exploded"
    (Or.inr ⟨rfl, rfl⟩)).1

namespace Engine

/-- Count of a list with one distinguished middle element. -/
theorem countP_mid (p : TPC → Bool) (l r : List TPC) (x : TPC) :
    (l ++ x :: r).countP p = l.countP p + r.countP p + (p x).toNat := by
  by_cases hp : p x <;> simp [List.countP_append, List.countP_cons, hp] <;> omega

/-- A boolean contributes at most one to a count. -/
theorem boolToNat_le_one (b : Bool) : b.toNat ≤ 1 := by cases b <;> decide

/-- A pending `create` in either side list forces a positive side count. -/
theorem side_creating_pos {id : Nat} {ts : List TPC} (h : TPC.creating id ∈ ts) :
    0 < ts.countP isCreating :=
  List.countP_pos_iff.mpr ⟨TPC.creating id, h, by simp [isCreating]⟩

/-- Membership in a list whose middle element was replaced: either the
middle element itself or a member of the list with any other middle. -/
theorem mem_mid_cases {t y : TPC} {l r : List TPC} (x : TPC)
    (h : t ∈ l ++ y :: r) : t = y ∨ t ∈ l ++ x :: r := by
  rcases List.mem_append.mp h with h | h
  · exact Or.inr (List.mem_append.mpr (Or.inl h))
  · rcases List.mem_cons.mp h with h | h
    · exact Or.inl h
    · exact Or.inr (List.mem_append.mpr (Or.inr (List.mem_cons.mpr (Or.inr h))))

/-- A pending `create` call is in particular inside the guarded section. -/
theorem creatingCount_le_inFlightCount (ts : List TPC) :
    creatingCount ts ≤ inFlightCount ts :=
  List.countP_mono_left fun t _ ht => by
    cases t <;> simp_all [isCreating, inFlight]

/-- `countP` positivity rephrased for `creatingCount`. -/
theorem creatingCount_pos_of_mem {id : Nat} {ts : List TPC}
    (h : TPC.creating id ∈ ts) : 0 < ts.countP isCreating :=
  List.countP_pos_iff.mpr ⟨TPC.creating id, h, by simp [isCreating]⟩

/-- The invariant holds initially. -/
theorem engInv_init (n : Nat) : EngInv (engInit n) := by
  unfold EngInv engInit
  refine ⟨?_, ?_, ?_, ?_, ?_, ?_⟩
  · simp [inFlightCount, List.countP_replicate, inFlight]
  · simp [creatingCount, List.countP_replicate, isCreating]
  · intro h hh
    cases hh
  · intro t ht hw
    subst hw
    cases List.eq_of_mem_replicate ht
  · intro id hid
    cases List.eq_of_mem_replicate hid
  · intro res hres
    cases List.eq_of_mem_replicate hres

/-- The invariant is preserved by every step. -/
theorem engInv_step (s s2 : EngState) (hinv : EngInv s) (hstep : EngStep s s2) :
    EngInv s2 := by
  obtain ⟨hCount, hLoads, hSess, hWait, hCreat, hDone⟩ := hinv
  cases hstep with
  | entryHit h fl loads l r =>
    obtain ⟨hfl, rfl⟩ := hSess h rfl
    dsimp only at hCount hLoads hWait hCreat hDone
    refine ⟨?_, ?_, ?_, ?_, ?_, ?_⟩ <;> dsimp only
    · rw [inFlightCount, countP_mid] at hCount ⊢
      simp only [inFlight, Bool.toNat_true, Bool.toNat_false] at hCount ⊢
      omega
    · rw [creatingCount, countP_mid] at hLoads ⊢
      simp only [isCreating, Bool.toNat_true, Bool.toNat_false] at hLoads ⊢
      omega
    · intro h2 hh2
      injection hh2 with hh
      exact ⟨hfl, hh.symm⟩
    · intro t ht hw
      rcases mem_mid_cases TPC.entry ht with rfl | ht2
      · cases hw
      · exact hWait t ht2 hw
    · intro id hid
      rcases mem_mid_cases TPC.entry hid with h2 | h2
      · cases h2
      · exact hCreat id h2
    · intro res hres
      rcases mem_mid_cases TPC.entry hres with h2 | h2
      · cases h2
        rfl
      · exact hDone res h2
  | entryWait loads l r =>
    dsimp only at hCount hLoads hWait hCreat hDone
    refine ⟨?_, ?_, ?_, ?_, ?_, ?_⟩ <;> dsimp only
    · rw [inFlightCount, countP_mid] at hCount ⊢
      simp only [inFlight, Bool.toNat_true, Bool.toNat_false] at hCount ⊢
      omega
    · rw [creatingCount, countP_mid] at hLoads ⊢
      simp only [isCreating, Bool.toNat_true, Bool.toNat_false] at hLoads ⊢
      omega
    · intro h hh
      cases hh
    · intro t ht hw
      exact Or.inl rfl
    · intro id hid
      rcases mem_mid_cases TPC.entry hid with h2 | h2
      · cases h2
      · exact hCreat id h2
    · intro res hres
      rcases mem_mid_cases TPC.entry hres with h2 | h2
      · cases h2
      · exact hDone res h2
  | entryClaim loads l r =>
    dsimp only at hCount hLoads hWait hCreat hDone
    refine ⟨?_, ?_, ?_, ?_, ?_, ?_⟩ <;> dsimp only
    · rw [inFlightCount, countP_mid] at hCount ⊢
      simp only [inFlight, Bool.toNat_true, Bool.toNat_false] at hCount ⊢
      omega
    · rw [creatingCount, countP_mid] at hLoads ⊢
      simp only [isCreating, Bool.toNat_true, Bool.toNat_false] at hLoads ⊢
      omega
    · intro h hh
      cases hh
    · intro t ht hw
      exact Or.inl rfl
    · intro id hid
      rcases mem_mid_cases TPC.entry hid with h2 | h2
      · cases h2
      · exact hCreat id h2
    · intro res hres
      rcases mem_mid_cases TPC.entry hres with h2 | h2
      · cases h2
      · exact hDone res h2
  | waitSpin sess loads l r =>
    exact ⟨hCount, hLoads, hSess, hWait, hCreat, hDone⟩
  | waitExit sess loads l r =>
    have hsess1 : sess = some 1 := by
      rcases hWait TPC.waiting
          (List.mem_append.mpr (Or.inr (List.mem_cons.mpr (Or.inl rfl)))) rfl with h | h
      · cases h
      · exact h
    subst hsess1
    dsimp only at hCount hLoads hWait hCreat hDone
    refine ⟨?_, ?_, ?_, ?_, ?_, ?_⟩ <;> dsimp only
    · rw [inFlightCount, countP_mid] at hCount ⊢
      simp only [inFlight, Bool.toNat_true, Bool.toNat_false] at hCount ⊢
      omega
    · rw [creatingCount, countP_mid] at hLoads ⊢
      simp only [isCreating, Bool.toNat_true, Bool.toNat_false] at hLoads ⊢
      omega
    · exact hSess
    · intro t ht hw
      rcases mem_mid_cases TPC.waiting ht with rfl | ht2
      · cases hw
      · exact hWait t ht2 hw
    · intro id hid
      rcases mem_mid_cases TPC.waiting hid with h2 | h2
      · cases h2
      · exact hCreat id h2
    · intro res hres
      rcases mem_mid_cases TPC.waiting hres with h2 | h2
      · cases h2
        rfl
      · exact hDone res h2
  | checkDone sess fl loads l r =>
    dsimp only at hCount hLoads hWait hCreat hDone
    have hsess : sess = none := by
      cases hs : sess with
      | none => rfl
      | some h =>
        obtain ⟨hfl, _⟩ := hSess h hs
        dsimp only at hfl
        subst hfl
        rw [inFlightCount, countP_mid] at hCount
        simp only [inFlight, Bool.toNat_true, Bool.toNat_false] at hCount
        exact absurd hCount (by omega)
    subst hsess
    have hfl : fl = true := by
      cases hf : fl with
      | true => rfl
      | false =>
        subst hf
        rw [inFlightCount, countP_mid] at hCount
        simp only [inFlight, Bool.toNat_true, Bool.toNat_false] at hCount
        exact absurd hCount (by omega)
    subst hfl
    rw [inFlightCount, countP_mid] at hCount
    simp only [inFlight, Bool.toNat_true, Bool.toNat_false] at hCount
    rw [creatingCount, countP_mid] at hLoads
    simp only [isCreating, Bool.toNat_true, Bool.toNat_false] at hLoads
    have hl := creatingCount_le_inFlightCount l
    have hr := creatingCount_le_inFlightCount r
    rw [creatingCount, inFlightCount] at hl hr
    refine ⟨?_, ?_, ?_, ?_, ?_, ?_⟩ <;> dsimp only
    · rw [inFlightCount, countP_mid]
      simp only [inFlight, Bool.toNat_true, Bool.toNat_false]
      omega
    · rw [creatingCount, countP_mid]
      simp only [isCreating, Bool.toNat_true, Bool.toNat_false]
      omega
    · intro h hh
      cases hh
    · intro t ht hw
      exact Or.inl rfl
    · intro id hid
      rcases List.mem_append.mp hid with h2 | h2
      · exact absurd (side_creating_pos h2) (by omega)
      · rcases List.mem_cons.mp h2 with h3 | h3
        · injection h3 with h4
          exact ⟨by omega, rfl⟩
        · exact absurd (side_creating_pos h3) (by omega)
    · intro res hres
      rcases mem_mid_cases TPC.checking hres with h2 | h2
      · cases h2
      · exact hDone res h2
  | createDone sess fl id loads l r =>
    dsimp only at hCount hLoads hWait hCreat hDone
    have hmem : TPC.creating id ∈ l ++ TPC.creating id :: r :=
      List.mem_append.mpr (Or.inr (List.mem_cons.mpr (Or.inl rfl)))
    obtain ⟨hid, hsess⟩ := hCreat id hmem
    subst hsess
    have hfl : fl = true := by
      cases hf : fl with
      | true => rfl
      | false =>
        subst hf
        rw [inFlightCount, countP_mid] at hCount
        simp only [inFlight, Bool.toNat_true, Bool.toNat_false] at hCount
        exact absurd hCount (by omega)
    subst hfl
    rw [inFlightCount, countP_mid] at hCount
    simp only [inFlight, Bool.toNat_true, Bool.toNat_false] at hCount
    rw [creatingCount, countP_mid] at hLoads
    simp only [isCreating, Bool.toNat_true, Bool.toNat_false] at hLoads
    have hl := creatingCount_le_inFlightCount l
    have hr := creatingCount_le_inFlightCount r
    rw [creatingCount, inFlightCount] at hl hr
    have hid1 : id = 1 := by omega
    subst hid1
    refine ⟨?_, ?_, ?_, ?_, ?_, ?_⟩ <;> dsimp only
    · rw [inFlightCount, countP_mid]
      simp only [inFlight, Bool.toNat_true, Bool.toNat_false]
      omega
    · rw [creatingCount, countP_mid]
      simp only [isCreating, Bool.toNat_true, Bool.toNat_false]
      omega
    · intro h hh
      injection hh with hh2
      exact ⟨rfl, hh2.symm⟩
    · intro t ht hw
      exact Or.inr rfl
    · intro id2 hid2
      exfalso
      rcases List.mem_append.mp hid2 with h2 | h2
      · exact absurd (side_creating_pos h2) (by omega)
      · rcases List.mem_cons.mp h2 with h3 | h3
        · cases h3
        · exact absurd (side_creating_pos h3) (by omega)
    · intro res hres
      rcases mem_mid_cases (TPC.creating 1) hres with h2 | h2
      · cases h2
        rfl
      · exact hDone res h2

/-- Every reachable state satisfies the invariant. -/
theorem engReach_inv (n : Nat) (s : EngState) (h : EngReach n s) : EngInv s := by
  induction h with
  | refl => exact engInv_init n
  | tail hsteps hstep ih => exact engInv_step _ _ ih hstep

end Engine

/-- C2: single-flight initialization.  In every state reachable by any
interleaving of concurrent callers of the session-initialization function,
at most one caller is inside the guarded load section (so at most one
initialization is in flight), at most one underlying load has ever been
issued, and every caller that has returned holds the same handle — the one
produced by the single load. -/
theorem c2_single_flight (n : Nat) (s : Engine.EngState) (h : Engine.EngReach n s) :
    Engine.inFlightCount s.tasks ≤ 1 ∧
    s.loads ≤ 1 ∧
    (∀ res, Engine.TPC.finished res ∈ s.tasks → res = some 1) := by
  obtain ⟨hCount, hLoads, hSess, hWait, hCreat, hDone⟩ := Engine.engReach_inv n s h
  refine ⟨?_, ?_, hDone⟩
  · rw [hCount]
    exact Engine.boolToNat_le_one _
  · rw [hLoads]
    cases hs : s.session with
    | none =>
      dsimp only
      have hle := Engine.creatingCount_le_inFlightCount s.tasks
      rw [hCount] at hle
      have hb := Engine.boolToNat_le_one s.flag
      omega
    | some h2 =>
      have hcr : Engine.creatingCount s.tasks = 0 := by
        rw [Engine.creatingCount]
        rw [List.countP_eq_zero]
        intro t ht hp
        cases t with
        | creating id =>
          obtain ⟨_, hnone⟩ := hCreat id ht
          rw [hnone] at hs
          cases hs
        | _ => simp [Engine.isCreating] at hp
      dsimp only
      rw [hcr]

/-- Witness for C2: a concrete five-step interleaving of two callers in
which the second joins the pending load and both finish with handle 1 after
a single underlying load. -/
theorem c2_single_flight_witness :
    Engine.inFlightCount [Engine.TPC.finished (some 1), Engine.TPC.finished (some 1)] ≤ 1 ∧
    (1 : Nat) ≤ 1 ∧
    (∀ res, Engine.TPC.finished res ∈
      [Engine.TPC.finished (some 1), Engine.TPC.finished (some 1)] → res = some 1) := by
  have hreach : Engine.EngReach 2
      ⟨some 1, false, 1, [Engine.TPC.finished (some 1), Engine.TPC.finished (some 1)]⟩ := by
    have s1 : Engine.EngStep (Engine.engInit 2)
        ⟨none, true, 0, [Engine.TPC.checking, Engine.TPC.entry]⟩ :=
      Engine.EngStep.entryClaim 0 [] [Engine.TPC.entry]
    have s2 : Engine.EngStep ⟨none, true, 0, [Engine.TPC.checking, Engine.TPC.entry]⟩
        ⟨none, true, 0, [Engine.TPC.checking, Engine.TPC.waiting]⟩ :=
      Engine.EngStep.entryWait 0 [Engine.TPC.checking] []
    have s3 : Engine.EngStep ⟨none, true, 0, [Engine.TPC.checking, Engine.TPC.waiting]⟩
        ⟨none, true, 1, [Engine.TPC.creating 1, Engine.TPC.waiting]⟩ :=
      Engine.EngStep.checkDone none true 0 [] [Engine.TPC.waiting]
    have s4 : Engine.EngStep ⟨none, true, 1, [Engine.TPC.creating 1, Engine.TPC.waiting]⟩
        ⟨some 1, false, 1, [Engine.TPC.finished (some 1), Engine.TPC.waiting]⟩ :=
      Engine.EngStep.createDone none true 1 1 [] [Engine.TPC.waiting]
    have s5 : Engine.EngStep
        ⟨some 1, false, 1, [Engine.TPC.finished (some 1), Engine.TPC.waiting]⟩
        ⟨some 1, false, 1, [Engine.TPC.finished (some 1), Engine.TPC.finished (some 1)]⟩ :=
      Engine.EngStep.waitExit (some 1) 1 [Engine.TPC.finished (some 1)] []
    exact Relation.ReflTransGen.tail
      (Relation.ReflTransGen.tail
        (Relation.ReflTransGen.tail
          (Relation.ReflTransGen.tail (Relation.ReflTransGen.single s1) s2) s3) s4) s5
  exact c2_single_flight 2 _ hreach

end BroTrans
